import Mathlib

/-!
Verification development for the `egui_extras` texture-manager subsystem
(`src/egui_extras/src/text_man/dyn_text_man.rs` and
`src/egui_extras/src/dynamic_texture_manager.rs`).

The Rust code is shallowly embedded: hash maps become association lists,
`&mut self` methods become functions from state to (state × result),
`usize` arithmetic is `Nat` with explicit wrapping `% 2 ^ 64` (Rust release
semantics; debug builds would panic on under/overflow instead), a `todo!()`
panic or a non-terminating loop is `Option.none`, and `SystemTime::now()`
is an explicit `now : Nat` clock argument supplied by the caller.

The external collaborators (the egui `TextureManager` handle pool, the
filesystem path-extension computation of `std::path`) are modelled from the
interface the core uses: `alloc(name, image) -> id`, `free(id)`,
`meta(id).bytes_used()` where a `Color32` image of `w × h` pixels occupies
`w * h * 4` bytes, and `Path::extension` which takes the part after the
last `.` of the last `/`-separated component.
-/

/-- `pub type TextSize = (usize, usize);` (`text_man.rs`). -/
abbrev TextSize := Nat × Nat

/-- `egui::TextureId`, modelled as the numeric id the managed allocator hands out. -/
abbrev TextureId := Nat

/-- `BytesLoaderErr` from `text_man/bytes_loader.rs`. -/
inductive BytesLoaderErr where
  | NotFound
  | Unknown (msg : String)
deriving DecidableEq

/-- `LoaderResult` from `text_man/bytes_loader.rs`: the loader protocol.
`Again` = try again later (resource still loading), `Bytes` = loaded,
`Err` = load failed. The byte payload is a list of byte values. -/
inductive LoaderResult where
  | Again
  | Bytes (bytes : List Nat)
  | Err (e : BytesLoaderErr)
deriving DecidableEq

/-- `BytesParserErr` from `text_man/bytes_parser.rs` (an opaque decode error). -/
structure BytesParserErr where
  msg : String
deriving DecidableEq

/-- `egui::ColorImage`, modelled by the fields that determine its byte
footprint: its pixel dimensions. A `Color32` pixel occupies 4 bytes. -/
structure ColorImage where
  width : Nat
  height : Nat
deriving DecidableEq

/-- Association-list lookup: the first binding of key `k`.
Models `HashMap::get` (hash maps bind each key at most once). -/
def assocLookup {α β : Type} [DecidableEq α] (k : α) : List (α × β) → Option β
  | [] => none
  | (k', v) :: rest => if k' = k then some v else assocLookup k rest

/-- Association-list removal of every binding of key `k`.
Models `HashMap::remove` (on a map with at most one binding per key). -/
def assocErase {α β : Type} [DecidableEq α] (k : α) : List (α × β) → List (α × β)
  | [] => []
  | (k', v) :: rest => if k' = k then assocErase k rest else (k', v) :: assocErase k rest

/-- Association-list insertion, replacing any existing binding of `k`.
Models `HashMap::insert`. -/
def assocInsert {α β : Type} [DecidableEq α] (k : α) (v : β) (l : List (α × β)) :
    List (α × β) :=
  (k, v) :: assocErase k l

/-- Modelled from the spec: the external HandlePool
(`egui::epaint::textures::TextureManager`, not part of this repository).
Per the spec's interface contract it allocates fresh handles, frees them,
and reports each live handle's byte footprint
(`alloc(name, image) -> Handle`, `free(Handle)`, `footprint(Handle) -> bytes | NotFound`).
`meta` maps each live handle to its `bytes_used()`. -/
structure TextureManager where
  next_id : Nat
  meta : List (TextureId × Nat)
deriving DecidableEq

/-- `TextureManager::alloc`: hand out the next fresh id, recording the image's
byte footprint (`w * h * 4` bytes for a `Color32` image). The texture name
does not influence behaviour. -/
def TextureManager.alloc (tm : TextureManager) (_name : String) (text : ColorImage) :
    TextureId × TextureManager :=
  (tm.next_id, ⟨tm.next_id + 1, (tm.next_id, text.width * text.height * 4) :: tm.meta⟩)

/-- `TextureManager::free`: drop the handle's record. -/
def TextureManager.free (tm : TextureManager) (id : TextureId) : TextureManager :=
  ⟨tm.next_id, assocErase id tm.meta⟩

/-- `DynTextManErr` from `text_man/dyn_text_man.rs`. -/
inductive DynTextManErr where
  | CachedTextureNotFound
  | InvalidFileName
  | NoParserRegisteredFor (ext : String)
  | Loader (e : BytesLoaderErr)
  | Parser (e : BytesParserErr)
deriving DecidableEq

/-- `byte_size_of_text_id` (`dyn_text_man.rs` lines 221-230): query the pool
for the handle's `bytes_used`, `CachedTextureNotFound` if it is not live. -/
def byteSizeOfTextId (id : TextureId) (tm : TextureManager) : Except DynTextManErr Nat :=
  match assocLookup id tm.meta with
  | none => .error .CachedTextureNotFound
  | some b => .ok b

/-- Split a character list at every occurrence of `sep` (model of string
splitting used by the `std::path` model below). -/
def splitOnChar (sep : Char) : List Char → List (List Char)
  | [] => [[]]
  | x :: xs =>
    match splitOnChar sep xs with
    | [] => [[]]
    | seg :: rest => if x = sep then [] :: seg :: rest else (x :: seg) :: rest

/-- Modelled from the spec / `std::path` (external): `Path::new(url).extension()`.
The extension is the part after the last `.` of the last `/`-separated
component; a leading-dot-only name (hidden file) and a dot-free name have
no extension. -/
def fileExtension (url : String) : Option String :=
  let fileName := (splitOnChar '/' url.toList).getLastD []
  match splitOnChar '.' fileName with
  | [] => none
  | [_] => none
  | first :: rest =>
    if first = [] ∧ rest.length = 1 then none
    else (rest.getLast?).map fun seg => String.mk seg

/-- `CachedTexture` (`text_man.rs`, the revision used by `dyn_text_man.rs`):
the decoded handle plus its last-access timestamp. -/
structure CachedTexture where
  last_used : Nat
  text_id : TextureId
deriving DecidableEq

/-- The `(url, size)` composite cache key (`TextIdCacheKey`). -/
abbrev CacheKey := String × TextSize

/-- `UnloadStrategy` from `dyn_text_man.rs`. -/
inductive UnloadStrategy where
  | None
  | TargetCacheSize (target_cache_size : Nat)
deriving DecidableEq

/-- A registered `BytesParser` (`text_man/bytes_parser.rs`): bytes plus a
requested size to a decoded image or a decode error. -/
abbrev BytesParserFn := List Nat → TextSize → Except BytesParserErr ColorImage

/-- `usize` wraps at `2 ^ 64`. -/
def USIZE_MOD : Nat := 2 ^ 64

/-- `DynTextMan` (`text_man/dyn_text_man.rs` lines 21-32). The loader is a
function field (`Box<dyn BytesLoader>`), the parsers an extension-keyed map. -/
structure DynTextMan where
  bytes_loader : String → LoaderResult
  bytes_parsers : List (String × BytesParserFn)
  internal_text_man : TextureManager
  placeholder_text_id : TextureId
  text_id_cache : List (CacheKey × CachedTexture)
  text_id_cache_size : Nat
  unload_strategy : UnloadStrategy

/-- `DynTextMan::alloc` (delegates to `alloc_in` on the shared pool). -/
def DynTextMan.alloc (st : DynTextMan) (name : String) (text : ColorImage) :
    TextureId × DynTextMan :=
  let r := st.internal_text_man.alloc name text
  (r.1, { st with internal_text_man := r.2 })

/-- `DynTextMan::insert_into_cache` (lines 95-103): bind `(url, size)` to the
handle with `last_used := now`. -/
def DynTextMan.insert_into_cache (st : DynTextMan) (now : Nat) (url : String)
    (size : TextSize) (text_id : TextureId) : DynTextMan :=
  { st with
    text_id_cache := assocInsert (url, size) ⟨now, text_id⟩ st.text_id_cache }

/-- `DynTextMan::unload` (lines 171-186): remove the `(url, size)` binding;
if one existed, subtract the pool-reported byte size of its handle from
`text_id_cache_size` (wrapping `usize` subtraction) and free the handle. -/
def DynTextMan.unload (st : DynTextMan) (url : String) (size : TextSize) :
    DynTextMan × Except DynTextManErr Unit :=
  match assocLookup (url, size) st.text_id_cache with
  | none => (st, .ok ())
  | some c =>
    let st1 : DynTextMan :=
      { st with text_id_cache := assocErase (url, size) st.text_id_cache }
    match byteSizeOfTextId c.text_id st1.internal_text_man with
    | .error e => (st1, .error e)
    | .ok sizeBytes =>
      ({ st1 with
          text_id_cache_size :=
            (st1.text_id_cache_size + USIZE_MOD - sizeBytes % USIZE_MOD) % USIZE_MOD,
          internal_text_man := st1.internal_text_man.free c.text_id },
        .ok ())

/-- `min_by_key(|text| text.1.last_used)` over the cache index: the first
entry (in iteration order) with the smallest `last_used`. -/
def minByLastUsed : List (CacheKey × CachedTexture) → Option (CacheKey × CachedTexture)
  | [] => none
  | e :: rest =>
    match minByLastUsed rest with
    | none => some e
    | some m => if e.2.last_used ≤ m.2.last_used then some e else some m

/-- The `while` loop of `DynTextMan::automatic_unload` (lines 58-81), with an
explicit iteration budget `fuel`; `none` means the budget was exhausted, in
particular a loop that never exits yields `none` for every budget. Each
iteration with the tracked size above the target unloads the entry with the
smallest `last_used` if one exists (and does nothing at all if the index is
empty, exactly like the source's `if let Some(...)` with no `else`). -/
def automaticUnloadLoop (target : Nat) :
    Nat → DynTextMan → Option (DynTextMan × Except DynTextManErr Unit)
  | 0, _ => none
  | fuel + 1, st =>
    if target < st.text_id_cache_size then
      match minByLastUsed st.text_id_cache with
      | some ((url, size), _) =>
        match st.unload url size with
        | (st', .ok _) => automaticUnloadLoop target fuel st'
        | (st', .error e) => some (st', .error e)
      | none => automaticUnloadLoop target fuel st
    else
      some (st, .ok ())

/-- `DynTextMan::automatic_unload` (lines 52-84): no-op under
`UnloadStrategy::None`, otherwise the eviction loop. -/
def DynTextMan.automatic_unload (st : DynTextMan) (fuel : Nat) :
    Option (DynTextMan × Except DynTextManErr Unit) :=
  match st.unload_strategy with
  | .None => some (st, .ok ())
  | .TargetCacheSize target => automaticUnloadLoop target fuel st

/-- `DynTextMan::file_ext_of` (lines 86-93). In this total model `to_str`
always succeeds, so the only failure is a missing extension. -/
def DynTextMan.file_ext_of (_st : DynTextMan) (url : String) : Except DynTextManErr String :=
  match fileExtension url with
  | none => .error .InvalidFileName
  | some ext => .ok ext

/-- `HashMap::get_mut` followed by `*last_used = SystemTime::now()` on the hit
path of `load`: refresh `last_used` of the binding of `k`, leaving every
other binding and the bound handle untouched. -/
def touchEntry (k : CacheKey) (now : Nat) :
    List (CacheKey × CachedTexture) → List (CacheKey × CachedTexture)
  | [] => []
  | (k', c) :: rest =>
    if k' = k then (k', ⟨now, c.text_id⟩) :: rest
    else (k', c) :: touchEntry k now rest

/-- The outcome of `DynTextMan::load`: the mutated state, the returned
`Result`, and whether the loader / a parser was invoked on the way
(instrumentation of the two external-collaborator call sites at lines 115
and 127). -/
structure LoadOutcome where
  state : DynTextMan
  result : Except DynTextManErr TextureId
  loader_invoked : Bool
  parser_invoked : Bool

/-- `DynTextMan::load` (lines 105-139). `none` models a panic or divergence:
the `todo!()` on `LoaderResult::Again` (line 116), or `automatic_unload`
exceeding the iteration budget `fuel`. On a cache hit the entry's
`last_used` is refreshed in place and the cached id returned. On a miss the
loader runs; on bytes the extension is resolved, the registered parser
decodes, the pool allocates, the tracked size grows by the pool-reported
footprint (wrapping `usize` addition), the entry is inserted, and the
eviction pass runs. -/
def DynTextMan.load (st : DynTextMan) (fuel : Nat) (now : Nat) (url : String)
    (size : TextSize) : Option LoadOutcome :=
  match assocLookup (url, size) st.text_id_cache with
  | some c =>
    some ⟨{ st with text_id_cache := touchEntry (url, size) now st.text_id_cache },
          .ok c.text_id, false, false⟩
  | none =>
    match st.bytes_loader url with
    | .Again => none
    | .Err e => some ⟨st, .error (.Loader e), true, false⟩
    | .Bytes bytes =>
      match st.file_ext_of url with
      | .error e => some ⟨st, .error e, true, false⟩
      | .ok ext =>
        match assocLookup ext st.bytes_parsers with
        | none => some ⟨st, .error (.NoParserRegisteredFor ext), true, false⟩
        | some bp =>
          match bp bytes size with
          | .error e => some ⟨st, .error (.Parser e), true, true⟩
          | .ok text =>
            let ar := st.alloc url text
            let text_id := ar.1
            let st1 := ar.2
            match byteSizeOfTextId text_id st1.internal_text_man with
            | .error e => some ⟨st1, .error e, true, true⟩
            | .ok text_id_size =>
              let st2 : DynTextMan :=
                { st1 with
                  text_id_cache_size :=
                    (st1.text_id_cache_size + text_id_size) % USIZE_MOD }
              let st3 := st2.insert_into_cache now url size text_id
              match st3.automatic_unload fuel with
              | none => none
              | some (st4, .error e) => some ⟨st4, .error e, true, true⟩
              | some (st4, .ok _) => some ⟨st4, .ok text_id, true, true⟩

/-- The outcome of `TextMan::load_sized` on `DynTextMan`: the mutated state,
the returned handle, and the instrumentation flags of the underlying `load`. -/
structure LoadSizedOutcome where
  state : DynTextMan
  text_id : TextureId
  loader_invoked : Bool
  parser_invoked : Bool

/-- `<DynTextMan as TextMan>::load_sized` (lines 246-259): delegate to `load`;
on `Err` log, cache the placeholder under `(url, size)` and return it. -/
def DynTextMan.load_sized (st : DynTextMan) (fuel : Nat) (now : Nat) (url : String)
    (size : TextSize) : Option LoadSizedOutcome :=
  match st.load fuel now url size with
  | none => none
  | some o =>
    match o.result with
    | .ok id => some ⟨o.state, id, o.loader_invoked, o.parser_invoked⟩
    | .error _ =>
      some ⟨o.state.insert_into_cache now url size o.state.placeholder_text_id,
            o.state.placeholder_text_id, o.loader_invoked, o.parser_invoked⟩

/-- `DynTextMan::new` (lines 141-161): allocate the 1×1 transparent
placeholder in the pool, start with empty parser registry, empty cache and
zero tracked size. -/
def DynTextMan.new (internal_text_man : TextureManager)
    (bytes_loader : String → LoaderResult) (unload_strategy : UnloadStrategy) :
    DynTextMan :=
  let r := internal_text_man.alloc "<temporary texture>" ⟨1, 1⟩
  { bytes_loader := bytes_loader
    bytes_parsers := []
    internal_text_man := r.2
    placeholder_text_id := r.1
    text_id_cache := []
    text_id_cache_size := 0
    unload_strategy := unload_strategy }

/-- `DynTextMan::register_bytes_parser` (lines 163-169). -/
def DynTextMan.register_bytes_decoder (st : DynTextMan) (ext : String)
    (p : BytesParserFn) : DynTextMan :=
  { st with bytes_parsers := assocInsert ext p st.bytes_parsers }

/-- The spec's `total_cache_bytes` ground truth: the sum of the
HandlePool-reported byte footprints of the handles currently bound in
`text_id_cache` (§3: "this running total must always equal the true sum"). -/
def trueCacheFootprintSum (st : DynTextMan) : Nat :=
  (st.text_id_cache.map
    (fun e => (assocLookup e.2.text_id st.internal_text_man.meta).getD 0)).sum

/-- `pub type BytesParser = fn(&[u8], Option<&TextureSize>) -> ColorImage;`
(`dynamic_texture_manager.rs` line 21): the older revision's infallible
decoder type, receiving the optional requested size. -/
abbrev DtmBytesDecoder := List Nat → Option TextSize → ColorImage

/-- `DynamicTextureManager` (`dynamic_texture_manager.rs` lines 34-47), the
older two-tier revision: a raw-bytes cache keyed by url plus a decoded
cache keyed by `(url, size)`. No byte accounting and no eviction exist in
this revision. -/
structure DynamicTextureManager where
  bytes_cache : List (String × List Nat)
  bytes_loader : String → LoaderResult
  bytes_parsers : List (String × DtmBytesDecoder)
  placeholder_tex_id : TextureId
  tex_id_cache : List (CacheKey × TextureId)
  tex_manager : TextureManager

/-- `DynamicTextureManager::new` (lines 50-75): allocate the 1×1 transparent
placeholder; the parser registry starts empty (the optional `svg` feature,
when compiled in, would pre-register an SVG decoder). -/
def DynamicTextureManager.new (tex_manager : TextureManager)
    (bytes_loader : String → LoaderResult) : DynamicTextureManager :=
  let r := tex_manager.alloc "<temporary texture>" ⟨1, 1⟩
  { bytes_cache := []
    bytes_loader := bytes_loader
    bytes_parsers := []
    placeholder_tex_id := r.1
    tex_id_cache := []
    tex_manager := r.2 }

/-- `DynamicTextureManager::get_and_cache_placeholder_tex_for` (lines 178-183):
bind `(url, size)` to the placeholder and return it. -/
def DynamicTextureManager.get_and_cache_placeholder_tex_for
    (st : DynamicTextureManager) (url : String) (size : TextSize) :
    DynamicTextureManager × TextureId :=
  ({ st with
      tex_id_cache := assocInsert (url, size) st.placeholder_tex_id st.tex_id_cache },
    st.placeholder_tex_id)

/-- `DynamicTextureManager::parse_bytes` (lines 169-176): look up the decoder
for the extension and run it; `none` models the `.expect(...)` panic when no
decoder is registered. -/
def DynamicTextureManager.parse_bytes (st : DynamicTextureManager) (bytes : List Nat)
    (ext : String) (size : Option TextSize) : Option ColorImage :=
  match assocLookup ext st.bytes_parsers with
  | none => none
  | some p => some (p bytes size)

/-- The shared tail of `internal_load` (lines 158-166): allocate the decoded
image in the pool and bind `(url, size_or_zero)` to the fresh id. -/
def DynamicTextureManager.allocAndCache (st : DynamicTextureManager) (url : String)
    (size_or_zero : TextSize) (image : ColorImage) : DynamicTextureManager × TextureId :=
  let r := st.tex_manager.alloc url image
  ({ st with
      tex_manager := r.2
      tex_id_cache := assocInsert (url, size_or_zero) r.1 st.tex_id_cache },
    r.1)

/-- `DynamicTextureManager::internal_load` (lines 121-167). `none` models the
missing-decoder panic inside `parse_bytes`. An omitted size is cached under
the canonical key `(0, 0)`. On `LoaderResult::Again` the placeholder is
returned immediately and nothing is cached. -/
def DynamicTextureManager.internal_load (st : DynamicTextureManager) (url : String)
    (size : Option TextSize) : Option (DynamicTextureManager × TextureId) :=
  let size_or_zero : TextSize := size.getD (0, 0)
  match assocLookup (url, size_or_zero) st.tex_id_cache with
  | some cached_texture_id => some (st, cached_texture_id)
  | none =>
    match fileExtension url with
    | none => some (st.get_and_cache_placeholder_tex_for url size_or_zero)
    | some ext =>
      match assocLookup url st.bytes_cache with
      | some cached_bytes =>
        match st.parse_bytes cached_bytes ext size with
        | none => none
        | some image => some (st.allocAndCache url size_or_zero image)
      | none =>
        match st.bytes_loader url with
        | .Again => some (st, st.placeholder_tex_id)
        | .Bytes bytes =>
          match st.parse_bytes bytes ext size with
          | none => none
          | some image => some (st.allocAndCache url size_or_zero image)
        | .Err _ => some (st.get_and_cache_placeholder_tex_for url size_or_zero)

/-- `DynamicTextureManager::load` (lines 88-90). -/
def DynamicTextureManager.load (st : DynamicTextureManager) (url : String) :
    Option (DynamicTextureManager × TextureId) :=
  st.internal_load url none

/-- `DynamicTextureManager::load_sized` (lines 97-99). -/
def DynamicTextureManager.load_sized (st : DynamicTextureManager) (url : String)
    (size : TextSize) : Option (DynamicTextureManager × TextureId) :=
  st.internal_load url (some size)

/-- `DynamicTextureManager::unload` (lines 107-111): drop the raw bytes for
`url` and the decoded entry cached under the canonical size `(0, 0)` only;
its own doc comment notes sized variants may remain cached. No handle is
freed. -/
def DynamicTextureManager.unload (st : DynamicTextureManager) (url : String) :
    DynamicTextureManager :=
  { st with
    bytes_cache := assocErase url st.bytes_cache
    tex_id_cache := assocErase (url, ((0, 0) : TextSize)) st.tex_id_cache }

/-- `DynamicTextureManager::unload_sized` (lines 116-119): drop only the one
`(url, size)` decoded entry; raw bytes remain. -/
def DynamicTextureManager.unload_sized (st : DynamicTextureManager) (url : String)
    (size : TextSize) : DynamicTextureManager :=
  { st with tex_id_cache := assocErase (url, size) st.tex_id_cache }

/-! ### Concrete fixtures used by the claim theorems -/

/-- A loader whose resources always fail to load (`LoaderResult::Err`). -/
def errLoader : String → LoaderResult := fun _ => .Err .NotFound

/-- A loader whose resources are always still pending (`LoaderResult::Again`). -/
def againLoader : String → LoaderResult := fun _ => .Again

/-- A loader that always delivers one byte of payload. -/
def oneByteLoader : String → LoaderResult := fun _ => .Bytes [0]

/-- A fresh, empty handle pool. -/
def tmEmpty : TextureManager := ⟨0, []⟩

/-- A fresh `DynTextMan` over a failing loader, no automatic unloading. Its
placeholder gets pool id 0 with footprint 4 (1×1×4 bytes). -/
def stBase : DynTextMan := DynTextMan.new tmEmpty errLoader .None

/-- `stBase` after `load_sized("a.png", (0,0))`: the load fails (loader error),
so the placeholder is cached under `("a.png", (0,0))`. -/
def stPlaceholderCached : DynTextMan :=
  match stBase.load_sized 1 0 "a.png" (0, 0) with
  | some o => o.state
  | none => stBase

/-- `stPlaceholderCached` after `unload("a.png", (0,0))`. -/
def stAfterUnload : DynTextMan := (stPlaceholderCached.unload "a.png" (0, 0)).1

/-- A fresh `DynTextMan` over an always-pending loader. -/
def stAgain : DynTextMan := DynTextMan.new tmEmpty againLoader .None

/-- A fresh `DynamicTextureManager` over an always-pending loader. -/
def dtmAgain : DynamicTextureManager := DynamicTextureManager.new tmEmpty againLoader

/-- A `DynTextMan` with a 50-byte cache target whose registered `"png"`
decoder produces a 5×5 image: a single entry of footprint 100 bytes, twice
the target. -/
def stOversized : DynTextMan :=
  (DynTextMan.new tmEmpty oneByteLoader (.TargetCacheSize 50)).register_bytes_decoder
    "png" (fun _ _ => .ok ⟨5, 5⟩)

/-- A fresh `DynTextMan` over a failing loader with cache target 0 bytes. -/
def stDriftBase : DynTextMan := DynTextMan.new tmEmpty errLoader (.TargetCacheSize 0)

/-- `stDriftBase` after the failing `load_sized("a.png", (0,0))` cached the
placeholder (the failure path does not run the eviction pass). -/
def stDriftCached : DynTextMan :=
  match stDriftBase.load_sized 1 0 "a.png" (0, 0) with
  | some o => o.state
  | none => stDriftBase

/-- `stDriftCached` after `unload("a.png", (0,0))`: the tracked size
underflowed to `2^64 - 4` while the cache index is empty — a state reachable
through the public operations alone. -/
def stDrift : DynTextMan := (stDriftCached.unload "a.png" (0, 0)).1

/-! ### Claim theorems -/

/-- C1. The claim says `load_sized` returns a usable handle for every loader
outcome and never raises to the caller. It is refuted by the
`LoaderResult::Again` outcome: `DynTextMan::load` hits the `todo!()` at
line 116 of `dyn_text_man.rs` and panics (modelled as `none`), so
`load_sized` returns no handle at all. -/
theorem c1_load_sized_panics_on_pending :
    stAgain.load_sized 5 0 "a.png" (0, 0) = none := rfl

/-- C2. The tracked `text_id_cache_size` drifts from the true pool-footprint
sum of the cached entries: after a failing `load_sized` cached the
placeholder (pool footprint 4) the tracked size is 0 but the true sum is 4;
after then unloading that key the cache is empty (true sum 0) while the
tracked size wrapped to `2^64 - 4` (Rust debug builds would panic on the
underflowing `usize` subtraction instead). -/
theorem c2_tracked_size_drifts :
    stPlaceholderCached.text_id_cache_size = 0 ∧
    trueCacheFootprintSum stPlaceholderCached = 4 ∧
    stAfterUnload.text_id_cache = [] ∧
    trueCacheFootprintSum stAfterUnload = 0 ∧
    stAfterUnload.text_id_cache_size = USIZE_MOD - 4 ∧
    stAfterUnload.text_id_cache_size ≠ trueCacheFootprintSum stAfterUnload := by
  refine ⟨rfl, rfl, rfl, rfl, by decide, by decide⟩

/-- C4. On the Pending/`Again` outcome, `DynTextMan::load` (the current
revision) panics via `todo!()` instead of returning the placeholder
(modelled as `none`), while the older `DynamicTextureManager::internal_load`
implements the claimed behaviour: it returns the placeholder immediately
and leaves the state (in particular the caches) unchanged, so a later call
re-invokes the loader. -/
theorem c4_pending_panics_in_dyn_text_man :
    stAgain.load 5 0 "a.png" (0, 0) = none ∧
    dtmAgain.internal_load "a.png" (some (3, 3)) =
      some (dtmAgain, dtmAgain.placeholder_tex_id) ∧
    dtmAgain.tex_id_cache = [] := ⟨rfl, rfl, rfl⟩

/-- C6. The placeholder handle (pool id 0, footprint 4) is cached under a
failing key, and the subsequent `unload` of that key frees the placeholder
from the pool — refuting "the placeholder handle is never freed by any
unload or eviction operation". -/
theorem c6_placeholder_freed_by_unload :
    stBase.placeholder_text_id = 0 ∧
    assocLookup ("a.png", ((0, 0) : TextSize)) stPlaceholderCached.text_id_cache =
      some ⟨0, stBase.placeholder_text_id⟩ ∧
    assocLookup stBase.placeholder_text_id stPlaceholderCached.internal_text_man.meta =
      some 4 ∧
    assocLookup stBase.placeholder_text_id stAfterUnload.internal_text_man.meta =
      none := ⟨rfl, rfl, rfl, rfl⟩

/-- The outcome of loading a 100-byte entry into `stOversized` (target 50). -/
def oversizedOutcome : LoadOutcome :=
  (stOversized.load 3 1 "a.png" (0, 0)).getD ⟨stOversized, .error .InvalidFileName, false, false⟩

/-- C7. With a target of 50 bytes and a single decoded entry of footprint 100,
the eviction pass that follows the insertion evicts the entry that was just
inserted: `load` returns `Ok(1)` but the cache index ends empty, handle 1
is no longer in the pool (the caller receives a freed handle), and the
tracked size is back to 0 — refuting "the eviction pass never removes the
entry that was just inserted and leaves the budget exceeded". -/
theorem c7_just_inserted_entry_is_evicted :
    (stOversized.load 3 1 "a.png" (0, 0)).isSome = true ∧
    oversizedOutcome.result = .ok 1 ∧
    oversizedOutcome.state.text_id_cache = [] ∧
    assocLookup 1 oversizedOutcome.state.internal_text_man.meta = none ∧
    oversizedOutcome.state.text_id_cache_size = 0 := ⟨rfl, rfl, rfl, rfl, rfl⟩

/-- When the cache index is empty but the tracked size still exceeds the
target, each iteration of the `automatic_unload` loop finds no entry to
evict (`min_by_key` over an empty index is `None`), changes nothing, and
re-tests the unchanged guard: the loop never terminates, i.e. it exhausts
every iteration budget. -/
theorem automaticUnloadLoop_empty_none (target : Nat) (st : DynTextMan)
    (hempty : st.text_id_cache = []) (hgt : target < st.text_id_cache_size) :
    ∀ fuel, automaticUnloadLoop target fuel st = none := by
  intro fuel
  induction fuel with
  | zero => rfl
  | succ n ih =>
    unfold automaticUnloadLoop
    rw [if_pos hgt, hempty]
    exact ih

/-- C10. The eviction pass does not terminate on every reachable state:
`stDrift` is reached from a fresh cache by a failing `load_sized` followed
by `unload` (the accounting drift of C2), leaving an empty index with
tracked size `2^64 - 4 > 0`; from there `automatic_unload` exhausts every
iteration budget — the loop body neither decreases the tracked size nor
exits when the index is empty. -/
theorem c10_automatic_unload_never_terminates :
    ∀ fuel : Nat, stDrift.automatic_unload fuel = none := by
  intro fuel
  exact automaticUnloadLoop_empty_none 0 stDrift rfl (by decide) fuel

/-! ### Association-list lemmas shared by the remaining claims -/

theorem assocLookup_insert_self {α β : Type} [DecidableEq α] (k : α) (v : β)
    (l : List (α × β)) : assocLookup k (assocInsert k v l) = some v := by
  simp [assocInsert, assocLookup]

theorem assocLookup_erase_self {α β : Type} [DecidableEq α] (k : α)
    (l : List (α × β)) : assocLookup k (assocErase k l) = none := by
  induction l with
  | nil => rfl
  | cons e rest ih =>
    obtain ⟨k', v⟩ := e
    by_cases h : k' = k
    · simpa [assocErase, h] using ih
    · simpa [assocErase, assocLookup, h] using ih

theorem assocLookup_erase_ne {α β : Type} [DecidableEq α] {k' k : α} (hne : k' ≠ k)
    (l : List (α × β)) : assocLookup k' (assocErase k l) = assocLookup k' l := by
  induction l with
  | nil => rfl
  | cons e rest ih =>
    obtain ⟨k'', v⟩ := e
    by_cases h : k'' = k
    · subst h
      have h2 : k'' ≠ k' := fun hc => hne hc.symm
      simpa [assocErase, assocLookup, h2] using ih
    · by_cases h3 : k'' = k'
      · simp [assocErase, assocLookup, h, h3, hne]
      · simpa [assocErase, assocLookup, h, h3] using ih

theorem assocLookup_touch_some (k : CacheKey) (t : Nat)
    (l : List (CacheKey × CachedTexture)) (c : CachedTexture)
    (h : assocLookup k l = some c) :
    assocLookup k (touchEntry k t l) = some ⟨t, c.text_id⟩ := by
  induction l with
  | nil => simp [assocLookup] at h
  | cons e rest ih =>
    obtain ⟨k', c'⟩ := e
    by_cases hk : k' = k
    · simp only [assocLookup, if_pos hk] at h
      cases h
      simp [touchEntry, assocLookup, hk]
    · simp only [assocLookup, if_neg hk] at h
      simpa [touchEntry, assocLookup, hk] using ih h

/-! ### C8: cache hits -/

/-- C8. A cache hit: if `(url, size)` is bound to entry `c`, `load` returns the
cached handle `c.text_id`, invokes neither the loader nor a parser, and the
only state change is refreshing that binding's `last_used` to `now`
(`touchEntry`); and calling `load` again on the result returns the identical
handle again, with the same shape of outcome. -/
theorem c8_cache_hit_returns_cached_handle (st : DynTextMan)
    (fuel now fuel2 now2 : Nat) (url : String) (size : TextSize) (c : CachedTexture)
    (hhit : assocLookup (url, size) st.text_id_cache = some c) :
    st.load fuel now url size =
      some ⟨{ st with text_id_cache := touchEntry (url, size) now st.text_id_cache },
            .ok c.text_id, false, false⟩ ∧
    DynTextMan.load
      { st with text_id_cache := touchEntry (url, size) now st.text_id_cache }
      fuel2 now2 url size =
      some ⟨{ st with
                text_id_cache :=
                  touchEntry (url, size) now2
                    (touchEntry (url, size) now st.text_id_cache) },
            .ok c.text_id, false, false⟩ := by
  constructor
  · unfold DynTextMan.load
    rw [hhit]
  · have h2 : assocLookup (url, size) (touchEntry (url, size) now st.text_id_cache) =
        some ⟨now, c.text_id⟩ := assocLookup_touch_some _ _ _ _ hhit
    unfold DynTextMan.load
    rw [h2]

/-- A state holding one cached entry, used to witness C8. -/
def stHitW : DynTextMan :=
  { stBase with text_id_cache := [(("a.png", (1, 1)), ⟨5, 7⟩)] }

/-- Witness for C8 at a concrete state: key `("a.png",(1,1))` is bound to
handle 7 with `last_used = 5`; two loads at times 10 and 11 both return 7. -/
theorem c8_cache_hit_witness :
    assocLookup ("a.png", ((1, 1) : TextSize)) stHitW.text_id_cache =
      some ⟨5, 7⟩ ∧
    (stHitW.load 1 10 "a.png" (1, 1) =
      some ⟨{ stHitW with
                text_id_cache := touchEntry ("a.png", (1, 1)) 10 stHitW.text_id_cache },
            .ok 7, false, false⟩ ∧
     DynTextMan.load
      { stHitW with
          text_id_cache := touchEntry ("a.png", (1, 1)) 10 stHitW.text_id_cache }
      2 11 "a.png" (1, 1) =
      some ⟨{ stHitW with
                text_id_cache :=
                  touchEntry ("a.png", (1, 1)) 11
                    (touchEntry ("a.png", (1, 1)) 10 stHitW.text_id_cache) },
            .ok 7, false, false⟩) :=
  ⟨rfl, c8_cache_hit_returns_cached_handle stHitW 1 10 2 11 "a.png" (1, 1) ⟨5, 7⟩ rfl⟩

/-! ### C5: failures cache the placeholder -/

/-- The `load` control flow reaches one of the four pre-allocation failures
(loader `Err`, missing extension, no registered parser for the extension,
decode error) — exactly the cascade of `DynTextMan::load` after a cache
miss, with `True` at each failing arm. -/
def failsBeforeAlloc (st : DynTextMan) (url : String) (size : TextSize) : Prop :=
  match st.bytes_loader url with
  | .Again => False
  | .Err _ => True
  | .Bytes bytes =>
    match st.file_ext_of url with
    | .error _ => True
    | .ok ext =>
      match assocLookup ext st.bytes_parsers with
      | none => True
      | some bp =>
        match bp bytes size with
        | .error _ => True
        | .ok _ => False

/-- C5. For a cache miss that fails before allocation (loader failure,
resolution failure, missing parser, or decode failure), `load_sized`
returns the placeholder and binds `(url, size)` to the placeholder with
timestamp `now`; a second `load_sized` for the same key then hits that
binding: it returns the placeholder again, invokes neither the loader nor
any parser, and only refreshes the binding's `last_used`. -/
theorem c5_failure_caches_placeholder (st : DynTextMan)
    (fuel now fuel2 now2 : Nat) (url : String) (size : TextSize)
    (hmiss : assocLookup (url, size) st.text_id_cache = none)
    (hfail : failsBeforeAlloc st url size) :
    ∃ pi : Bool,
      st.load_sized fuel now url size =
        some ⟨st.insert_into_cache now url size st.placeholder_text_id,
              st.placeholder_text_id, true, pi⟩ ∧
      (st.insert_into_cache now url size st.placeholder_text_id).load_sized
          fuel2 now2 url size =
        some ⟨{ st.insert_into_cache now url size st.placeholder_text_id with
                  text_id_cache :=
                    touchEntry (url, size) now2
                      (st.insert_into_cache now url size
                        st.placeholder_text_id).text_id_cache },
              st.placeholder_text_id, false, false⟩ := by
  have hhit : assocLookup (url, size)
      (st.insert_into_cache now url size st.placeholder_text_id).text_id_cache =
      some ⟨now, st.placeholder_text_id⟩ := by
    simp [DynTextMan.insert_into_cache, assocLookup_insert_self]
  have hload2 : (st.insert_into_cache now url size st.placeholder_text_id).load
      fuel2 now2 url size =
      some ⟨{ st.insert_into_cache now url size st.placeholder_text_id with
                text_id_cache :=
                  touchEntry (url, size) now2
                    (st.insert_into_cache now url size
                      st.placeholder_text_id).text_id_cache },
            .ok st.placeholder_text_id, false, false⟩ := by
    unfold DynTextMan.load
    rw [hhit]
  have hsecond : (st.insert_into_cache now url size st.placeholder_text_id).load_sized
      fuel2 now2 url size =
      some ⟨{ st.insert_into_cache now url size st.placeholder_text_id with
                text_id_cache :=
                  touchEntry (url, size) now2
                    (st.insert_into_cache now url size
                      st.placeholder_text_id).text_id_cache },
            st.placeholder_text_id, false, false⟩ := by
    unfold DynTextMan.load_sized
    rw [hload2]
  unfold failsBeforeAlloc at hfail
  split at hfail
  · exact absurd hfail (by simp)
  · next e heq =>
    refine ⟨false, ?_, hsecond⟩
    have hload : st.load fuel now url size = some ⟨st, .error (.Loader e), true, false⟩ := by
      unfold DynTextMan.load
      rw [hmiss, heq]
    unfold DynTextMan.load_sized
    rw [hload]
  · next bytes heq =>
    split at hfail
    · next e heqe =>
      refine ⟨false, ?_, hsecond⟩
      have hload : st.load fuel now url size = some ⟨st, .error e, true, false⟩ := by
        unfold DynTextMan.load
        rw [hmiss, heq, heqe]
      unfold DynTextMan.load_sized
      rw [hload]
    · next ext heqe =>
      split at hfail
      · next heqp =>
        refine ⟨false, ?_, hsecond⟩
        have hload : st.load fuel now url size =
            some ⟨st, .error (.NoParserRegisteredFor ext), true, false⟩ := by
          unfold DynTextMan.load
          simp only [hmiss, heq, heqe, heqp]
        unfold DynTextMan.load_sized
        rw [hload]
      · next bp heqp =>
        split at hfail
        · next e heqd =>
          refine ⟨true, ?_, hsecond⟩
          have hload : st.load fuel now url size =
              some ⟨st, .error (.Parser e), true, true⟩ := by
            unfold DynTextMan.load
            simp only [hmiss, heq, heqe, heqp, heqd]
          unfold DynTextMan.load_sized
          rw [hload]
        · exact absurd hfail (by simp)

/-- Witness for C5 at a concrete state: the fresh failing-loader cache. Both
hypotheses hold, the first `load_sized` caches and returns the placeholder,
the second returns it from the cache without loader or parser work. -/
theorem c5_failure_caches_placeholder_witness :
    assocLookup ("a.png", ((0, 0) : TextSize)) stBase.text_id_cache = none ∧
    failsBeforeAlloc stBase "a.png" (0, 0) ∧
    (∃ pi : Bool,
      stBase.load_sized 1 0 "a.png" (0, 0) =
        some ⟨stBase.insert_into_cache 0 "a.png" (0, 0) stBase.placeholder_text_id,
              stBase.placeholder_text_id, true, pi⟩ ∧
      (stBase.insert_into_cache 0 "a.png" (0, 0) stBase.placeholder_text_id).load_sized
          2 3 "a.png" (0, 0) =
        some ⟨{ stBase.insert_into_cache 0 "a.png" (0, 0) stBase.placeholder_text_id with
                  text_id_cache :=
                    touchEntry ("a.png", (0, 0)) 3
                      (stBase.insert_into_cache 0 "a.png" (0, 0)
                        stBase.placeholder_text_id).text_id_cache },
              stBase.placeholder_text_id, false, false⟩) :=
  ⟨rfl, trivial,
    c5_failure_caches_placeholder stBase 1 0 2 3 "a.png" (0, 0) rfl trivial⟩

/-! ### C9: whole-key unload -/

/-- A `DynamicTextureManager` state with raw bytes for `"a.svg"` and decoded
entries at two sizes, `(10,10) ↦ 7` and the canonical `(0,0) ↦ 8`. -/
def dtmMulti : DynamicTextureManager :=
  { bytes_cache := [("a.svg", [1, 2])]
    bytes_loader := errLoader
    bytes_parsers := []
    placeholder_tex_id := 0
    tex_id_cache := [(("a.svg", (10, 10)), 7), (("a.svg", (0, 0)), 8)]
    tex_manager := ⟨9, [(0, 4), (7, 400), (8, 4)]⟩ }

/-- C9 counterexample. `unload("a.svg")` does not remove every size variant:
the decoded entry at size `(10,10)` survives, and no handle is freed (the
pool is untouched) — refuting the claim at this explicit input. -/
theorem c9_unload_leaves_sized_variant :
    assocLookup ("a.svg", ((10, 10) : TextSize)) (dtmMulti.unload "a.svg").tex_id_cache =
      some 7 ∧
    (dtmMulti.unload "a.svg").tex_manager = dtmMulti.tex_manager := ⟨rfl, rfl⟩

/-- C9 amended. `DynamicTextureManager::unload(url)` drops the cached raw
bytes for `url` and only the decoded entry at the canonical size `(0,0)`;
every decoded entry at any other size is left exactly as it was, and no
handle is freed (the pool is untouched). -/
theorem c9_unload_amended (st : DynamicTextureManager) (url : String) (s : TextSize)
    (hs : s ≠ (0, 0)) :
    assocLookup url (st.unload url).bytes_cache = none ∧
    assocLookup (url, ((0, 0) : TextSize)) (st.unload url).tex_id_cache = none ∧
    assocLookup (url, s) (st.unload url).tex_id_cache =
      assocLookup (url, s) st.tex_id_cache ∧
    (st.unload url).tex_manager = st.tex_manager := by
  refine ⟨assocLookup_erase_self _ _, assocLookup_erase_self _ _, ?_, rfl⟩
  exact assocLookup_erase_ne (fun h => hs (congrArg Prod.snd h)) _

/-- Witness for the amended C9 at the concrete two-size state. -/
theorem c9_unload_amended_witness :
    ((10, 10) : TextSize) ≠ (0, 0) ∧
    (assocLookup "a.svg" (dtmMulti.unload "a.svg").bytes_cache = none ∧
     assocLookup ("a.svg", ((0, 0) : TextSize)) (dtmMulti.unload "a.svg").tex_id_cache =
       none ∧
     assocLookup ("a.svg", ((10, 10) : TextSize)) (dtmMulti.unload "a.svg").tex_id_cache =
       assocLookup ("a.svg", ((10, 10) : TextSize)) dtmMulti.tex_id_cache ∧
     (dtmMulti.unload "a.svg").tex_manager = dtmMulti.tex_manager) :=
  ⟨by decide, c9_unload_amended dtmMulti "a.svg" (10, 10) (by decide)⟩

/-! ### C3: the eviction pass is LRU down to the target -/

theorem assocLookup_cons_self {α β : Type} [DecidableEq α] (k : α) (v : β)
    (l : List (α × β)) : assocLookup k ((k, v) :: l) = some v := by
  simp [assocLookup]

theorem not_mem_keys_of_lookup_none {α β : Type} [DecidableEq α] {k : α} :
    ∀ {l : List (α × β)}, assocLookup k l = none → k ∉ l.map Prod.fst := by
  intro l
  induction l with
  | nil => intro _ h; simp at h
  | cons e rest ih =>
    intro hl hm
    obtain ⟨k', v⟩ := e
    by_cases h : k' = k
    · simp [assocLookup, h] at hl
    · simp only [List.map_cons, List.mem_cons] at hm
      rcases hm with hm | hm
      · exact h hm.symm
      · exact ih (by simpa [assocLookup, h] using hl) hm

theorem assocErase_of_not_mem_keys {α β : Type} [DecidableEq α] {k : α} :
    ∀ {l : List (α × β)}, k ∉ l.map Prod.fst → assocErase k l = l := by
  intro l
  induction l with
  | nil => intro _; rfl
  | cons e rest ih =>
    intro hm
    obtain ⟨k', v⟩ := e
    simp only [List.map_cons, List.mem_cons] at hm
    push_neg at hm
    rw [assocErase, if_neg (fun h => hm.1 h.symm), ih hm.2]

theorem assocLookup_of_mem_nodup {α β : Type} [DecidableEq α] {k : α} {v : β} :
    ∀ {l : List (α × β)}, (l.map Prod.fst).Nodup → (k, v) ∈ l →
      assocLookup k l = some v := by
  intro l
  induction l with
  | nil => intro _ h; simp at h
  | cons e rest ih =>
    intro hn hm
    obtain ⟨k', v'⟩ := e
    simp only [List.map_cons, List.nodup_cons] at hn
    rcases List.mem_cons.mp hm with heq | hmem
    · cases heq
      rw [assocLookup, if_pos rfl]
    · have hk : k' ≠ k := by
        intro h
        subst h
        exact hn.1 (List.mem_map_of_mem Prod.fst hmem)
      rw [assocLookup, if_neg hk]
      exact ih hn.2 hmem

theorem perm_cons_assocErase {α β : Type} [DecidableEq α] {k : α} {v : β} :
    ∀ {l : List (α × β)}, (l.map Prod.fst).Nodup → (k, v) ∈ l →
      l.Perm ((k, v) :: assocErase k l) := by
  intro l
  induction l with
  | nil => intro _ h; simp at h
  | cons e rest ih =>
    intro hn hm
    obtain ⟨k', v'⟩ := e
    simp only [List.map_cons, List.nodup_cons] at hn
    rcases List.mem_cons.mp hm with heq | hmem
    · cases heq
      rw [assocErase, if_pos rfl, assocErase_of_not_mem_keys hn.1]
    · have hk : k' ≠ k := by
        intro h
        subst h
        exact hn.1 (List.mem_map_of_mem Prod.fst hmem)
      rw [assocErase, if_neg hk]
      exact (List.Perm.cons _ (ih hn.2 hmem)).trans (List.Perm.swap _ _ _)

theorem list_map_congr_on {α β : Type} (f g : α → β) :
    ∀ l : List α, (∀ a ∈ l, f a = g a) → l.map f = l.map g := by
  intro l
  induction l with
  | nil => intro _; rfl
  | cons x rest ih =>
    intro h
    simp only [List.map_cons]
    rw [h x (List.mem_cons_self _ _), ih (fun a ha => h a (List.mem_cons_of_mem _ ha))]

theorem minByLastUsed_mem :
    ∀ (l : List (CacheKey × CachedTexture)) (e : CacheKey × CachedTexture),
      minByLastUsed l = some e → e ∈ l := by
  intro l
  induction l with
  | nil => intro e h; simp [minByLastUsed] at h
  | cons x rest ih =>
    intro e h
    unfold minByLastUsed at h
    cases hr : minByLastUsed rest with
    | none =>
      simp only [hr] at h
      cases h
      exact List.mem_cons_self _ _
    | some m =>
      simp only [hr] at h
      by_cases hle : x.2.last_used ≤ m.2.last_used
      · rw [if_pos hle] at h
        cases h
        exact List.mem_cons_self _ _
      · rw [if_neg hle] at h
        cases h
        exact List.mem_cons_of_mem _ (ih _ hr)

theorem minByLastUsed_cons (x : CacheKey × CachedTexture)
    (l : List (CacheKey × CachedTexture)) :
    ∃ m, minByLastUsed (x :: l) = some m := by
  cases hml : minByLastUsed l with
  | none => exact ⟨x, by unfold minByLastUsed; simp only [hml]⟩
  | some m =>
    by_cases h : x.2.last_used ≤ m.2.last_used
    · exact ⟨x, by unfold minByLastUsed; simp only [hml]; rw [if_pos h]⟩
    · exact ⟨m, by unfold minByLastUsed; simp only [hml]; rw [if_neg h]⟩

/-- Well-formedness of a `DynTextMan` state under exact accounting: distinct
cache keys (a hash map), distinct cached handles, every cached handle live
in the pool, the tracked byte counter equal to the true pool-footprint sum,
and the counter a `usize` value. The placeholder-caching drift of C2/C6 is
precisely a violation of this invariant; on states satisfying it the
eviction pass behaves as specified. -/
def CacheInv (st : DynTextMan) : Prop :=
  (st.text_id_cache.map Prod.fst).Nodup ∧
  (st.text_id_cache.map (fun e => e.2.text_id)).Nodup ∧
  (∀ e ∈ st.text_id_cache,
    (assocLookup e.2.text_id st.internal_text_man.meta).isSome) ∧
  st.text_id_cache_size = trueCacheFootprintSum st ∧
  st.text_id_cache_size < USIZE_MOD

/-- Modelled from the spec (§4.2): "while `total_cache_bytes > target`, select
the CacheEntry with the smallest `last_used` timestamp (oldest access)
across the whole index, unload it (free handle, subtract footprint), and
repeat", with the implementation's deterministic tie-break (first minimal
entry in index order) and an explicit iteration budget. -/
def lruEvictSpec (target : Nat) : Nat → DynTextMan → DynTextMan
  | 0, st => st
  | fuel + 1, st =>
    if target < trueCacheFootprintSum st then
      match minByLastUsed st.text_id_cache with
      | none => st
      | some (k, c) =>
        lruEvictSpec target fuel
          { st with
            text_id_cache := assocErase k st.text_id_cache,
            text_id_cache_size :=
              st.text_id_cache_size -
                (assocLookup c.text_id st.internal_text_man.meta).getD 0,
            internal_text_man := st.internal_text_man.free c.text_id }
    else st

/-- On any state satisfying `CacheInv`, the implementation's eviction loop
terminates within `length + 1` iterations, computes exactly the
spec-modelled LRU eviction (each round unloads the entry with the smallest
`last_used` across the whole index, frees its handle and subtracts its
footprint), ends with the tracked size at or under the target, and
preserves the invariant. -/
theorem automaticUnloadLoop_refines (target : Nat) :
    ∀ (n : Nat) (st : DynTextMan), CacheInv st → st.text_id_cache.length ≤ n →
      automaticUnloadLoop target (n + 1) st =
        some (lruEvictSpec target (n + 1) st, .ok ()) ∧
      (lruEvictSpec target (n + 1) st).text_id_cache_size ≤ target ∧
      CacheInv (lruEvictSpec target (n + 1) st) := by
  intro n
  induction n with
  | zero =>
    intro st hinv hlen
    obtain ⟨hk, hi, hp, hacct, hlt⟩ := hinv
    have hempty : st.text_id_cache = [] := List.length_eq_zero.mp (Nat.le_zero.mp hlen)
    have hsize0 : st.text_id_cache_size = 0 := by
      rw [hacct]
      unfold trueCacheFootprintSum
      rw [hempty]
      rfl
    have hnot : ¬ target < st.text_id_cache_size := by omega
    have hnot' : ¬ target < trueCacheFootprintSum st := by
      rw [← hacct]
      exact hnot
    have hspec0 : lruEvictSpec target (0 + 1) st = st := by
      conv_lhs => rw [lruEvictSpec]
      rw [if_neg hnot']
    refine ⟨?_, ?_, ?_⟩
    · conv_lhs => rw [automaticUnloadLoop]
      rw [if_neg hnot, hspec0]
    · rw [hspec0]
      omega
    · rw [hspec0]
      exact ⟨hk, hi, hp, hacct, hlt⟩
  | succ n ih =>
    intro st hinv hlen
    obtain ⟨hk, hi, hp, hacct, hlt⟩ := hinv
    by_cases hgt : target < st.text_id_cache_size
    · -- the guard holds: the cache cannot be empty
      have hne : st.text_id_cache ≠ [] := by
        intro h
        have : trueCacheFootprintSum st = 0 := by
          unfold trueCacheFootprintSum
          rw [h]
          rfl
        omega
      obtain ⟨m, hmin⟩ : ∃ m, minByLastUsed st.text_id_cache = some m := by
        cases hc : st.text_id_cache with
        | nil => exact absurd hc hne
        | cons x xs =>
          obtain ⟨m, hm⟩ := minByLastUsed_cons x xs
          exact ⟨m, hm⟩
      obtain ⟨⟨url, size⟩, c⟩ := m
      have hmem : ((url, size), c) ∈ st.text_id_cache := minByLastUsed_mem _ _ hmin
      have hlook : assocLookup (url, size) st.text_id_cache = some c :=
        assocLookup_of_mem_nodup hk hmem
      obtain ⟨f, hf⟩ := Option.isSome_iff_exists.mp (hp _ hmem)
      have hperm : st.text_id_cache.Perm
          (((url, size), c) :: assocErase (url, size) st.text_id_cache) :=
        perm_cons_assocErase hk hmem
      have hsumsplit : trueCacheFootprintSum st =
          f + ((assocErase (url, size) st.text_id_cache).map
            (fun e => (assocLookup e.2.text_id st.internal_text_man.meta).getD 0)).sum := by
        have hpermFoot :=
          hperm.map (fun e => (assocLookup e.2.text_id st.internal_text_man.meta).getD 0)
        unfold trueCacheFootprintSum
        rw [hpermFoot.sum_eq]
        simp only [List.map_cons, List.sum_cons, hf, Option.getD_some]
      have hfsize : f ≤ st.text_id_cache_size := by omega
      have harith : (st.text_id_cache_size + USIZE_MOD - f % USIZE_MOD) % USIZE_MOD =
          st.text_id_cache_size - f := by
        have hfM : f % USIZE_MOD = f := Nat.mod_eq_of_lt (lt_of_le_of_lt hfsize hlt)
        rw [hfM]
        have h1 : st.text_id_cache_size + USIZE_MOD - f =
            (st.text_id_cache_size - f) + USIZE_MOD := by omega
        rw [h1, Nat.add_mod_right]
        exact Nat.mod_eq_of_lt (by omega)
      set st' : DynTextMan :=
        { st with
          text_id_cache := assocErase (url, size) st.text_id_cache,
          text_id_cache_size := st.text_id_cache_size - f,
          internal_text_man := st.internal_text_man.free c.text_id } with hst'
      have hunload : st.unload url size = (st', .ok ()) := by
        unfold DynTextMan.unload
        simp only [hlook, byteSizeOfTextId, hf]
        rw [harith]
      have hkeysE : ((url, size) : CacheKey) ∉
          (assocErase (url, size) st.text_id_cache).map Prod.fst :=
        not_mem_keys_of_lookup_none (assocLookup_erase_self _ _)
      have hpool' : ∀ e ∈ assocErase (url, size) st.text_id_cache,
          assocLookup e.2.text_id (st.internal_text_man.free c.text_id).meta =
            assocLookup e.2.text_id st.internal_text_man.meta := by
        intro e hm
        have hel : e ∈ st.text_id_cache := hperm.mem_iff.mpr (List.mem_cons_of_mem _ hm)
        have hidne : e.2.text_id ≠ c.text_id := by
          intro hideq
          have hec : e = ((url, size), c) := List.inj_on_of_nodup_map hi hel hmem hideq
          rw [hec] at hm
          exact hkeysE (List.mem_map_of_mem Prod.fst hm)
        show assocLookup e.2.text_id (assocErase c.text_id st.internal_text_man.meta) = _
        exact assocLookup_erase_ne hidne _
      have hsum' : trueCacheFootprintSum st' = st.text_id_cache_size - f := by
        have hmapeq : (assocErase (url, size) st.text_id_cache).map
            (fun e => (assocLookup e.2.text_id
              (st.internal_text_man.free c.text_id).meta).getD 0) =
            (assocErase (url, size) st.text_id_cache).map
              (fun e => (assocLookup e.2.text_id st.internal_text_man.meta).getD 0) :=
          list_map_congr_on _ _ _ (fun e he => by rw [hpool' e he])
        show ((assocErase (url, size) st.text_id_cache).map
          (fun e => (assocLookup e.2.text_id
            (st.internal_text_man.free c.text_id).meta).getD 0)).sum =
          st.text_id_cache_size - f
        rw [hmapeq]
        omega
      have hpermKeys := hperm.map Prod.fst
      have hpermIds := hperm.map (fun e => e.2.text_id)
      have hk' : (st'.text_id_cache.map Prod.fst).Nodup := by
        have h2 := hpermKeys.nodup_iff.mp hk
        simp only [List.map_cons] at h2
        exact h2.of_cons
      have hi' : (st'.text_id_cache.map (fun e => e.2.text_id)).Nodup := by
        have h2 := hpermIds.nodup_iff.mp hi
        simp only [List.map_cons] at h2
        exact h2.of_cons
      have hp' : ∀ e ∈ st'.text_id_cache,
          (assocLookup e.2.text_id st'.internal_text_man.meta).isSome := by
        intro e hm
        show (assocLookup e.2.text_id (st.internal_text_man.free c.text_id).meta).isSome
        rw [hpool' e hm]
        exact hp e (hperm.mem_iff.mpr (List.mem_cons_of_mem _ hm))
      have hacct' : st'.text_id_cache_size = trueCacheFootprintSum st' := by
        rw [hsum']
      have hlt' : st'.text_id_cache_size < USIZE_MOD := by
        show st.text_id_cache_size - f < USIZE_MOD
        omega
      have hlen' : st'.text_id_cache.length ≤ n := by
        have hle := hperm.length_eq
        simp only [List.length_cons] at hle
        show (assocErase (url, size) st.text_id_cache).length ≤ n
        omega
      obtain ⟨ihA, ihB, ihC⟩ := ih st' ⟨hk', hi', hp', hacct', hlt'⟩ hlen'
      have hgt' : target < trueCacheFootprintSum st := by
        rw [← hacct]
        exact hgt
      have hspec : lruEvictSpec target (n + 1 + 1) st = lruEvictSpec target (n + 1) st' := by
        conv_lhs => rw [lruEvictSpec]
        rw [if_pos hgt']
        simp only [hmin, hf, Option.getD_some]
      refine ⟨?_, ?_, ?_⟩
      · conv_lhs => rw [automaticUnloadLoop]
        rw [if_pos hgt]
        simp only [hmin, hunload]
        rw [hspec]
        exact ihA
      · rw [hspec]
        exact ihB
      · rw [hspec]
        exact ihC
    · -- the guard fails: both sides stop immediately
      have hnot' : ¬ target < trueCacheFootprintSum st := by
        rw [← hacct]
        exact hgt
      have hspec0 : lruEvictSpec target (n + 1 + 1) st = st := by
        conv_lhs => rw [lruEvictSpec]
        rw [if_neg hnot']
      refine ⟨?_, ?_, ?_⟩
      · conv_lhs => rw [automaticUnloadLoop]
        rw [if_neg hgt, hspec0]
      · rw [hspec0]
        omega
      · rw [hspec0]
        exact ⟨hk, hi, hp, hacct, hlt⟩

/-- The state right after the successful-decode path of `load` has allocated
the image (fresh handle `next_id`, footprint `w * h * 4` recorded in the
pool), grown the tracked size by that footprint, and inserted the new cache
entry — the state on which the eviction pass then runs. -/
def insertedState (st : DynTextMan) (now : Nat) (url : String) (size : TextSize)
    (img : ColorImage) : DynTextMan :=
  { st with
    internal_text_man :=
      ⟨st.internal_text_man.next_id + 1,
        (st.internal_text_man.next_id, img.width * img.height * 4) ::
          st.internal_text_man.meta⟩,
    text_id_cache_size :=
      (st.text_id_cache_size + img.width * img.height * 4) % USIZE_MOD,
    text_id_cache :=
      assocInsert (url, size) ⟨now, st.internal_text_man.next_id⟩ st.text_id_cache }

/-- On a cache miss whose loader, extension resolution, parser lookup and
decode all succeed, `load` allocates, accounts, inserts (reaching
`insertedState`) and then hands control to the eviction pass, returning the
fresh handle if that pass succeeds. -/
theorem load_success_path (st : DynTextMan) (fuel now : Nat) (url : String)
    (size : TextSize) (bytes : List Nat) (ext : String) (bp : BytesParserFn)
    (img : ColorImage)
    (hmiss : assocLookup (url, size) st.text_id_cache = none)
    (hloader : st.bytes_loader url = .Bytes bytes)
    (hext : st.file_ext_of url = .ok ext)
    (hbp : assocLookup ext st.bytes_parsers = some bp)
    (himg : bp bytes size = .ok img) :
    st.load fuel now url size =
      match (insertedState st now url size img).automatic_unload fuel with
      | none => none
      | some (st4, .error e) => some ⟨st4, .error e, true, true⟩
      | some (st4, .ok _) =>
        some ⟨st4, .ok st.internal_text_man.next_id, true, true⟩ := by
  unfold DynTextMan.load
  simp only [hmiss, hloader, hext, hbp, himg, DynTextMan.alloc, TextureManager.alloc,
    byteSizeOfTextId, assocLookup_cons_self, DynTextMan.insert_into_cache, insertedState]

/-- C3. With `UnloadStrategy::TargetCacheSize(target)`, on any well-formed
state (`CacheInv`, with the fresh handle genuinely fresh and the grown
counter still a `usize`), a successful load runs the eviction pass directly
after inserting the new entry, and that pass computes exactly the
spec-modelled LRU eviction `lruEvictSpec`: while the tracked size exceeds
the target it unloads the entry with the smallest `last_used` across the
whole index (freeing its handle and subtracting its pool footprint),
terminating with the tracked size at or under the target. -/
theorem c3_eviction_is_lru_to_target (st : DynTextMan) (now : Nat) (url : String)
    (size : TextSize) (bytes : List Nat) (ext : String) (bp : BytesParserFn)
    (img : ColorImage) (target : Nat)
    (hstrat : st.unload_strategy = .TargetCacheSize target)
    (hmiss : assocLookup (url, size) st.text_id_cache = none)
    (hloader : st.bytes_loader url = .Bytes bytes)
    (hext : st.file_ext_of url = .ok ext)
    (hbp : assocLookup ext st.bytes_parsers = some bp)
    (himg : bp bytes size = .ok img)
    (hinv : CacheInv st)
    (hfresh : ∀ e ∈ st.text_id_cache, e.2.text_id ≠ st.internal_text_man.next_id)
    (hbound : st.text_id_cache_size + img.width * img.height * 4 < USIZE_MOD) :
    st.load (st.text_id_cache.length + 2) now url size =
      some ⟨lruEvictSpec target (st.text_id_cache.length + 2)
              (insertedState st now url size img),
            .ok st.internal_text_man.next_id, true, true⟩ ∧
    (lruEvictSpec target (st.text_id_cache.length + 2)
      (insertedState st now url size img)).text_id_cache_size ≤ target := by
  obtain ⟨hk, hi, hp, hacct, hlt⟩ := hinv
  have hknotin : ((url, size) : CacheKey) ∉ st.text_id_cache.map Prod.fst :=
    not_mem_keys_of_lookup_none hmiss
  have herase : assocErase ((url, size) : CacheKey) st.text_id_cache = st.text_id_cache :=
    assocErase_of_not_mem_keys hknotin
  have hcacheI : (insertedState st now url size img).text_id_cache =
      ((url, size), (⟨now, st.internal_text_man.next_id⟩ : CachedTexture)) ::
        st.text_id_cache := by
    show assocInsert (url, size) ⟨now, st.internal_text_man.next_id⟩ st.text_id_cache = _
    unfold assocInsert
    rw [herase]
  have hmetaI : (insertedState st now url size img).internal_text_man.meta =
      (st.internal_text_man.next_id, img.width * img.height * 4) ::
        st.internal_text_man.meta := rfl
  have hkI : ((insertedState st now url size img).text_id_cache.map Prod.fst).Nodup := by
    rw [hcacheI]
    simp only [List.map_cons]
    exact List.nodup_cons.mpr ⟨hknotin, hk⟩
  have hiI : ((insertedState st now url size img).text_id_cache.map
      (fun e => e.2.text_id)).Nodup := by
    rw [hcacheI]
    simp only [List.map_cons]
    refine List.nodup_cons.mpr ⟨?_, hi⟩
    intro hmemid
    obtain ⟨e, hemem, heid⟩ := List.mem_map.mp hmemid
    exact hfresh e hemem heid
  have hpI : ∀ e ∈ (insertedState st now url size img).text_id_cache,
      (assocLookup e.2.text_id
        (insertedState st now url size img).internal_text_man.meta).isSome := by
    intro e hm
    rw [hcacheI] at hm
    rw [hmetaI]
    rcases List.mem_cons.mp hm with heq | hmem
    · subst heq
      simp [assocLookup_cons_self]
    · have hne : st.internal_text_man.next_id ≠ e.2.text_id :=
        fun h => hfresh e hmem h.symm
      rw [assocLookup, if_neg hne]
      exact hp e hmem
  have htail : st.text_id_cache.map
      (fun e => (assocLookup e.2.text_id
        ((st.internal_text_man.next_id, img.width * img.height * 4) ::
          st.internal_text_man.meta)).getD 0) =
      st.text_id_cache.map
        (fun e => (assocLookup e.2.text_id st.internal_text_man.meta).getD 0) := by
    apply list_map_congr_on
    intro e he
    rw [assocLookup, if_neg (fun h => hfresh e he h.symm)]
  have hfoot : trueCacheFootprintSum (insertedState st now url size img) =
      img.width * img.height * 4 + trueCacheFootprintSum st := by
    unfold trueCacheFootprintSum
    rw [hcacheI, hmetaI]
    simp only [List.map_cons, List.sum_cons, assocLookup_cons_self, Option.getD_some]
    rw [htail]
  have hacctI : (insertedState st now url size img).text_id_cache_size =
      trueCacheFootprintSum (insertedState st now url size img) := by
    show (st.text_id_cache_size + img.width * img.height * 4) % USIZE_MOD = _
    rw [hfoot, Nat.mod_eq_of_lt hbound, hacct]
    omega
  have hltI : (insertedState st now url size img).text_id_cache_size < USIZE_MOD := by
    show (st.text_id_cache_size + img.width * img.height * 4) % USIZE_MOD < USIZE_MOD
    exact Nat.mod_lt _ (by norm_num [USIZE_MOD])
  have hlenI : (insertedState st now url size img).text_id_cache.length ≤
      st.text_id_cache.length + 1 := by
    rw [hcacheI]
    simp
  have hrun := automaticUnloadLoop_refines target (st.text_id_cache.length + 1)
    (insertedState st now url size img) ⟨hkI, hiI, hpI, hacctI, hltI⟩ hlenI
  have hrun1 : automaticUnloadLoop target (st.text_id_cache.length + 2)
      (insertedState st now url size img) =
      some (lruEvictSpec target (st.text_id_cache.length + 2)
        (insertedState st now url size img), .ok ()) := hrun.1
  have hrun2 : (lruEvictSpec target (st.text_id_cache.length + 2)
      (insertedState st now url size img)).text_id_cache_size ≤ target := hrun.2.1
  refine ⟨?_, hrun2⟩
  rw [load_success_path st (st.text_id_cache.length + 2) now url size bytes ext bp img
    hmiss hloader hext hbp himg]
  have hau : (insertedState st now url size img).automatic_unload
      (st.text_id_cache.length + 2) =
      automaticUnloadLoop target (st.text_id_cache.length + 2)
        (insertedState st now url size img) := by
    unfold DynTextMan.automatic_unload
    have hstratI : (insertedState st now url size img).unload_strategy =
        .TargetCacheSize target := hstrat
    rw [hstratI]
  rw [hau, hrun1]

/-- A decoder producing a 2×2 image (footprint 16 bytes). -/
def evictDecoder : BytesParserFn := fun _ _ => .ok ⟨2, 2⟩

/-- A well-formed state for the C3 witness: two cached entries of 16 bytes
each (handles 1 and 2, `last_used` 1 and 2), tracked size 32, target 40;
loading one more 16-byte entry pushes the size to 48 and must evict the
least recently used entry (handle 1). -/
def stEvict : DynTextMan :=
  { bytes_loader := oneByteLoader
    bytes_parsers := [("png", evictDecoder)]
    internal_text_man := ⟨3, [(1, 16), (2, 16), (0, 4)]⟩
    placeholder_text_id := 0
    text_id_cache := [(("old1.png", (0, 0)), ⟨1, 1⟩), (("old2.png", (0, 0)), ⟨2, 2⟩)]
    text_id_cache_size := 32
    unload_strategy := .TargetCacheSize 40 }

/-- Witness for C3 at `stEvict`: every hypothesis holds concretely, and the
load returns the fresh handle 3 with the final state computed by the
spec-modelled LRU eviction, its tracked size at or under the 40-byte
target. -/
theorem c3_eviction_witness :
    stEvict.unload_strategy = .TargetCacheSize 40 ∧
    assocLookup ("new.png", ((0, 0) : TextSize)) stEvict.text_id_cache = none ∧
    stEvict.bytes_loader "new.png" = .Bytes [0] ∧
    stEvict.file_ext_of "new.png" = .ok "png" ∧
    assocLookup "png" stEvict.bytes_parsers = some evictDecoder ∧
    evictDecoder [0] (0, 0) = .ok ⟨2, 2⟩ ∧
    CacheInv stEvict ∧
    (∀ e ∈ stEvict.text_id_cache, e.2.text_id ≠ stEvict.internal_text_man.next_id) ∧
    stEvict.text_id_cache_size + 2 * 2 * 4 < USIZE_MOD ∧
    (stEvict.load 4 9 "new.png" (0, 0) =
      some ⟨lruEvictSpec 40 4 (insertedState stEvict 9 "new.png" (0, 0) ⟨2, 2⟩),
            .ok 3, true, true⟩ ∧
     (lruEvictSpec 40 4
       (insertedState stEvict 9 "new.png" (0, 0) ⟨2, 2⟩)).text_id_cache_size ≤ 40) :=
  ⟨rfl, rfl, rfl, rfl, rfl, rfl,
    ⟨by decide, by decide, by decide, by decide, by decide⟩,
    by decide, by decide,
    c3_eviction_is_lru_to_target stEvict 9 "new.png" (0, 0) [0] "png" evictDecoder
      ⟨2, 2⟩ 40 rfl rfl rfl rfl rfl rfl
      ⟨by decide, by decide, by decide, by decide, by decide⟩
      (by decide) (by decide)⟩
